import Mathlib

/-!
Verification development for the viewstats scraper (`src/main.py`).

The program is embedded shallowly: pure helpers (`parse_email_from_text`,
handle normalization, percent-encoding, string splitting/stripping) are
translated directly from the Python source; the browser, the per-channel
pipeline (`scrape_viewstats` lines 368-433), and the keyword/page sweep are
modelled as explicit state passing over a `Browser` state, with the
environment (page bodies, element reads, waits) supplied as oracle data so
that every control path of the source is represented.
-/

/-! ## Email parsing (`parse_email_from_text`, main.py lines 258-266)

The Python function applies `re.findall` with the pattern
`[A-Za-z0-9._%+\-]+@[A-Za-z0-9.\-]+\.[A-Za-z]{2,}` and returns the first
match or `""`.  The embedding mirrors the leftmost scan and the greedy
backtracking of the regex engine on this concrete pattern: the local part
is the maximal run of local characters (it cannot be shortened, since `@`
is not a local character), the domain is tried from its maximal run
downwards until a dot followed by at least two letters is found, and the
TLD is the maximal letter run. -/

def isLocalChar (c : Char) : Bool :=
  c.isAlpha || c.isDigit || c == '.' || c == '_' || c == '%' || c == '+' || c == '-'

def isDomainChar (c : Char) : Bool :=
  c.isAlpha || c.isDigit || c == '.' || c == '-'

/-- Length of the maximal run of characters satisfying `p` at the front. -/
def runLen (p : Char → Bool) (l : List Char) : Nat :=
  (l.takeWhile p).length

/-- Backtracking search for the domain split, mirroring the regex engine:
candidate domain lengths are tried from `J` down to 1; a candidate `j`
succeeds when position `j` after the `@` holds a dot followed by at least
two letters, and then the greedy TLD is the maximal letter run. Returns
the length matched after the `@`. -/
def tryDomain (r2 : List Char) : Nat → Option Nat
  | 0 => none
  | j + 1 =>
    match r2.drop (j + 1) with
    | '.' :: rest =>
      if 2 ≤ runLen Char.isAlpha rest then some ((j + 1) + 1 + runLen Char.isAlpha rest)
      else tryDomain r2 j
    | _ => tryDomain r2 j

/-- Attempt an email match starting at the head of `s`; returns the length
of the (greedy) match when one exists. -/
def matchAt (s : List Char) : Option Nat :=
  if runLen isLocalChar s = 0 then none
  else
    match s.drop (runLen isLocalChar s) with
    | '@' :: r2 =>
      match tryDomain r2 (runLen isDomainChar r2) with
      | some dlen => some (runLen isLocalChar s + 1 + dlen)
      | none => none
    | _ => none

/-- The leftmost scan of `re.findall`: try each start position from the
left, return the first (greedy) match. -/
def findFirstEmail : List Char → Option (List Char)
  | [] => none
  | c :: rest =>
    match matchAt (c :: rest) with
    | some len => some ((c :: rest).take len)
    | none => findFirstEmail rest

/-- `parse_email_from_text` (main.py 258-266): first regex match or `""`. -/
def parse_email_from_text (raw_text : String) : String :=
  match findFirstEmail raw_text.data with
  | some w => String.mk w
  | none => ""

/-- The email grammar of the pattern: nonempty local part of local
characters, `@`, nonempty domain of domain characters, a dot, and a TLD of
at least two letters. -/
def EmailWord (w : List Char) : Prop :=
  ∃ l d t : List Char,
    w = l ++ '@' :: (d ++ '.' :: t) ∧
    l ≠ [] ∧ (∀ c ∈ l, isLocalChar c = true) ∧
    d ≠ [] ∧ (∀ c ∈ d, isDomainChar c = true) ∧
    2 ≤ t.length ∧ (∀ c ∈ t, c.isAlpha = true)

example : parse_email_from_text "contact: x@y.com please" = "x@y.com" := by decide
example : parse_email_from_text "a@b.c nope" = "" := by decide
example : parse_email_from_text "u@v.comm123.net" = "u@v.comm123.net" := by decide
example : parse_email_from_text "-a@b..cd!" = "-a@b..cd" := by decide

/-! ### takeWhile helper lemmas -/

lemma takeWhile_all_stop (p : Char → Bool) (l : List Char) (x : Char) (r : List Char)
    (hl : ∀ c ∈ l, p c = true) (hx : p x = false) : (l ++ x :: r).takeWhile p = l := by
  induction l with
  | nil => simp [List.takeWhile_cons, hx]
  | cons a tl ih =>
    have ha : p a = true := hl a (by simp)
    simp [List.takeWhile_cons, ha, ih fun c hc => hl c (by simp [hc])]

lemma takeWhile_all (p : Char → Bool) (l : List Char) (hl : ∀ c ∈ l, p c = true) :
    l.takeWhile p = l := by
  induction l with
  | nil => rfl
  | cons a tl ih =>
    have ha : p a = true := hl a (by simp)
    simp [List.takeWhile_cons, ha, ih fun c hc => hl c (by simp [hc])]

lemma le_runLen_append (p : Char → Bool) (l m : List Char) (hl : ∀ c ∈ l, p c = true) :
    l.length ≤ runLen p (l ++ m) := by
  induction l with
  | nil => simp
  | cons a tl ih =>
    have ha : p a = true := hl a (by simp)
    have h2 := ih fun c hc => hl c (by simp [hc])
    simp only [runLen] at h2
    simp only [runLen, List.cons_append, List.takeWhile_cons, ha, if_true, List.length_cons]
    omega

lemma runLen_le_length (p : Char → Bool) (l : List Char) : runLen p l ≤ l.length := by
  induction l with
  | nil => simp [runLen]
  | cons a tl ih =>
    by_cases hp : p a = true
    · simp [runLen, List.takeWhile_cons, hp] at ih ⊢
      omega
    · simp [runLen, List.takeWhile_cons, hp]

lemma mem_take_runLen (p : Char → Bool) (l : List Char) :
    ∀ j, j ≤ runLen p l → ∀ c ∈ l.take j, p c = true := by
  induction l with
  | nil => intro j _ c hc; simp at hc
  | cons a tl ih =>
    intro j hj c hc
    cases j with
    | zero => simp at hc
    | succ j =>
      by_cases hp : p a = true
      · simp only [runLen, List.takeWhile_cons, hp, if_true, List.length_cons] at hj
        rw [List.take_succ_cons] at hc
        rcases List.mem_cons.mp hc with h | h
        · exact h ▸ hp
        · exact ih j (by simpa [runLen] using Nat.le_of_succ_le_succ hj) c h
      · simp [runLen, List.takeWhile_cons, hp] at hj

lemma take_runLen (p : Char → Bool) (l : List Char) : l.take (runLen p l) = l.takeWhile p := by
  induction l with
  | nil => rfl
  | cons a tl ih =>
    by_cases hp : p a = true
    · simp [runLen, List.takeWhile_cons, hp, List.take_succ_cons] at ih ⊢
      exact ih
    · simp [runLen, List.takeWhile_cons, hp]

lemma take_len_append (l m : List Char) (n : Nat) :
    (l ++ m).take (l.length + n) = l ++ m.take n := by
  induction l with
  | nil => simp
  | cons a tl ih =>
    have harith : tl.length + 1 + n = (tl.length + n) + 1 := by omega
    simp only [List.cons_append, List.length_cons, harith, List.take_succ_cons, ih]

lemma mem_takeWhile_sat (p : Char → Bool) (l : List Char) (c : Char)
    (hc : c ∈ l.takeWhile p) : p c = true := by
  simpa using List.mem_takeWhile_imp hc

/-! ### tryDomain: soundness and completeness of the backtracking search -/

lemma tryDomain_sound : ∀ (J : Nat) (r2 : List Char) (dlen : Nat),
    tryDomain r2 J = some dlen →
    ∃ j rest0, 1 ≤ j ∧ j ≤ J ∧ r2.drop j = '.' :: rest0 ∧
      2 ≤ runLen Char.isAlpha rest0 ∧ dlen = j + 1 + runLen Char.isAlpha rest0 := by
  intro J
  induction J with
  | zero => intro r2 dlen h; simp [tryDomain] at h
  | succ J ih =>
    intro r2 dlen h
    rw [tryDomain] at h
    split at h
    case h_1 rest0 heq =>
      split at h
      case isTrue htl =>
        have hd : (J + 1) + 1 + runLen Char.isAlpha rest0 = dlen := by
          simpa using h
        exact ⟨J + 1, rest0, by omega, le_refl _, heq, htl, by omega⟩
      case isFalse =>
        obtain ⟨j, r0, h1, h2, h3, h4, h5⟩ := ih r2 dlen h
        exact ⟨j, r0, h1, by omega, h3, h4, h5⟩
    case h_2 =>
      obtain ⟨j, r0, h1, h2, h3, h4, h5⟩ := ih r2 dlen h
      exact ⟨j, r0, h1, by omega, h3, h4, h5⟩

lemma tryDomain_complete : ∀ (J : Nat) (r2 : List Char) (j : Nat) (rest0 : List Char),
    1 ≤ j → j ≤ J → r2.drop j = '.' :: rest0 → 2 ≤ runLen Char.isAlpha rest0 →
    ∃ dlen, tryDomain r2 J = some dlen := by
  intro J
  induction J with
  | zero => intro r2 j rest0 h1 h2 _ _; omega
  | succ J ih =>
    intro r2 j rest0 h1 h2 hdrop htl
    by_cases hj : j = J + 1
    · subst hj
      refine ⟨(J + 1) + 1 + runLen Char.isAlpha rest0, ?_⟩
      rw [tryDomain, hdrop]
      simp [htl]
    · have hj' : j ≤ J := by omega
      rw [tryDomain]
      split
      next rest1 heq =>
        split
        next => exact ⟨_, rfl⟩
        next => exact ih r2 j rest0 h1 hj' hdrop htl
      next => exact ih r2 j rest0 h1 hj' hdrop htl

/-! ### matchAt: soundness and completeness -/

lemma matchAt_sound (s : List Char) (len : Nat) (h : matchAt s = some len) :
    ∃ l d t rest : List Char,
      s = l ++ '@' :: (d ++ '.' :: (t ++ rest)) ∧
      s.take len = l ++ '@' :: (d ++ '.' :: t) ∧
      l ≠ [] ∧ (∀ c ∈ l, isLocalChar c = true) ∧
      d ≠ [] ∧ (∀ c ∈ d, isDomainChar c = true) ∧
      2 ≤ t.length ∧ (∀ c ∈ t, c.isAlpha = true) := by
  rw [matchAt] at h
  split at h
  next => exact absurd h (by simp)
  next hk0 =>
    split at h
    next r2 hdropk =>
      split at h
      next dlen htd =>
        have hlen : runLen isLocalChar s + 1 + dlen = len := by simpa using h
        obtain ⟨j, rest0, hj1, hjm, hdropj, htl, hdl⟩ := tryDomain_sound _ _ _ htd
        have hkle : runLen isLocalChar s ≤ s.length := runLen_le_length isLocalChar s
        have hklen : (s.take (runLen isLocalChar s)).length = runLen isLocalChar s := by
          rw [List.length_take]; omega
        have hjle : j ≤ r2.length := le_trans hjm (runLen_le_length isDomainChar r2)
        have hjlen : (r2.take j).length = j := by
          rw [List.length_take]; omega
        have hr2 : r2 = r2.take j ++ '.' ::
            (rest0.takeWhile Char.isAlpha ++ rest0.dropWhile Char.isAlpha) := by
          conv_lhs => rw [← List.take_append_drop j r2]
          rw [hdropj, List.takeWhile_append_dropWhile]
        have hs : s = s.take (runLen isLocalChar s) ++ '@' :: (r2.take j ++ '.' ::
            (rest0.takeWhile Char.isAlpha ++ rest0.dropWhile Char.isAlpha)) := by
          conv_lhs => rw [← List.take_append_drop (runLen isLocalChar s) s]
          rw [hdropk, ← hr2]
        refine ⟨s.take (runLen isLocalChar s), r2.take j, rest0.takeWhile Char.isAlpha,
          rest0.dropWhile Char.isAlpha, hs, ?_, ?_, ?_, ?_, ?_, htl, ?_⟩
        · have htwlen : (rest0.takeWhile Char.isAlpha).length = runLen Char.isAlpha rest0 := rfl
          conv_lhs => rw [hs]
          have harith : len = (s.take (runLen isLocalChar s)).length +
              (1 + ((r2.take j).length + (1 + (rest0.takeWhile Char.isAlpha).length))) := by
            rw [hklen, hjlen, htwlen]; omega
          rw [harith, take_len_append]
          congr 1
          have h1a : 1 + ((r2.take j).length + (1 + (rest0.takeWhile Char.isAlpha).length)) =
              ((r2.take j).length + (1 + (rest0.takeWhile Char.isAlpha).length)) + 1 := by omega
          rw [h1a, List.take_succ_cons, take_len_append]
          congr 1
          have h1b : 1 + (rest0.takeWhile Char.isAlpha).length =
              (rest0.takeWhile Char.isAlpha).length + 1 := by omega
          rw [h1b, List.take_succ_cons]
          congr 1
          have h0 := take_len_append (rest0.takeWhile Char.isAlpha) (rest0.dropWhile Char.isAlpha) 0
          simpa using h0
        · intro hnil
          rw [hnil] at hklen
          simp at hklen
          exact hk0 hklen.symm
        · intro c hc
          rw [take_runLen] at hc
          exact mem_takeWhile_sat _ _ _ hc
        · intro hnil
          rw [hnil] at hjlen
          simp at hjlen
          omega
        · exact mem_take_runLen isDomainChar r2 j hjm
        · intro c hc
          exact mem_takeWhile_sat _ _ _ hc
      next => exact absurd h (by simp)
    next => exact absurd h (by simp)

lemma matchAt_complete (s w tail : List Char) (hs : s = w ++ tail) (hw : EmailWord w) :
    ∃ len, matchAt s = some len := by
  obtain ⟨l, d, t, hweq, hl, hlsat, hd, hdsat, ht2, htsat⟩ := hw
  have hseq : s = l ++ '@' :: (d ++ '.' :: (t ++ tail)) := by
    rw [hs, hweq]; simp
  have hat : isLocalChar '@' = false := by decide
  have hk : runLen isLocalChar s = l.length := by
    rw [hseq]; unfold runLen; rw [takeWhile_all_stop isLocalChar l '@' _ hlsat hat]
  have hk0 : runLen isLocalChar s ≠ 0 := by
    rw [hk]; intro h0; exact hl (List.length_eq_zero.mp h0)
  have hdropk : s.drop (runLen isLocalChar s) = '@' :: (d ++ '.' :: (t ++ tail)) := by
    rw [hk, hseq, List.drop_left]
  have hdot : isDomainChar '.' = true := by decide
  have hdall : ∀ c ∈ d ++ ['.'], isDomainChar c = true := by
    intro c hc
    rcases List.mem_append.mp hc with h | h
    · exact hdsat c h
    · simp at h; subst h; exact hdot
  have hr2eq : d ++ '.' :: (t ++ tail) = (d ++ ['.']) ++ (t ++ tail) := by simp
  have hm : d.length + 1 ≤ runLen isDomainChar (d ++ '.' :: (t ++ tail)) := by
    rw [hr2eq]
    have := le_runLen_append isDomainChar (d ++ ['.']) (t ++ tail) hdall
    simpa using this
  have hdropj : (d ++ '.' :: (t ++ tail)).drop d.length = '.' :: (t ++ tail) :=
    List.drop_left d _
  have htrun : 2 ≤ runLen Char.isAlpha (t ++ tail) :=
    le_trans ht2 (le_runLen_append Char.isAlpha t tail htsat)
  obtain ⟨dlen, hdlen⟩ := tryDomain_complete (runLen isDomainChar (d ++ '.' :: (t ++ tail)))
    (d ++ '.' :: (t ++ tail)) d.length (t ++ tail)
    (by have hp := List.length_pos.mpr hd; omega)
    (by omega) hdropj htrun
  refine ⟨runLen isLocalChar s + 1 + dlen, ?_⟩
  rw [matchAt, if_neg hk0, hdropk]
  simp [hdlen]

/-! ### The left-to-right scan -/

lemma findFirstEmail_none (s : List Char) (h : findFirstEmail s = none) :
    ∀ p, matchAt (s.drop p) = none := by
  induction s with
  | nil =>
    intro p
    simp [List.drop_nil, matchAt, runLen]
  | cons c rest ih =>
    intro p
    rw [findFirstEmail] at h
    rcases hm : matchAt (c :: rest) with _ | len
    · cases p with
      | zero => exact hm
      | succ p => exact ih (by rw [hm] at h; exact h) p
    · rw [hm] at h; simp at h

lemma findFirstEmail_some (s w : List Char) (h : findFirstEmail s = some w) :
    ∃ p len, matchAt (s.drop p) = some len ∧ w = (s.drop p).take len ∧
      ∀ q, q < p → matchAt (s.drop q) = none := by
  induction s with
  | nil => simp [findFirstEmail] at h
  | cons c rest ih =>
    rw [findFirstEmail] at h
    rcases hm : matchAt (c :: rest) with _ | len
    · rw [hm] at h
      obtain ⟨p, len, h1, h2, h3⟩ := ih h
      refine ⟨p + 1, len, h1, h2, ?_⟩
      intro q hq
      cases q with
      | zero => exact hm
      | succ q => exact h3 q (by omega)
    · rw [hm] at h
      refine ⟨0, len, by simpa using hm, by simpa using h.symm, by omega⟩

/-! ### A bare email re-matches itself -/

lemma emailWord_matchAt (w : List Char) (hw : EmailWord w) : matchAt w = some w.length := by
  obtain ⟨l, d, t, hweq, hl, hlsat, hd, hdsat, ht2, htsat⟩ := hw
  have hat : isLocalChar '@' = false := by decide
  have hk : runLen isLocalChar w = l.length := by
    rw [hweq]; unfold runLen; rw [takeWhile_all_stop isLocalChar l '@' _ hlsat hat]
  have hk0 : runLen isLocalChar w ≠ 0 := by
    rw [hk]; intro h0; exact hl (List.length_eq_zero.mp h0)
  have hdropk : w.drop (runLen isLocalChar w) = '@' :: (d ++ '.' :: t) := by
    rw [hk, hweq, List.drop_left]
  have hdall : ∀ c ∈ d ++ '.' :: t, isDomainChar c = true := by
    intro c hc
    rcases List.mem_append.mp hc with h | h
    · exact hdsat c h
    · rcases List.mem_cons.mp h with h | h
      · subst h; decide
      · have := htsat c h
        simp [isDomainChar, this]
  have hm : runLen isDomainChar (d ++ '.' :: t) = d.length + 1 + t.length := by
    unfold runLen
    rw [takeWhile_all isDomainChar _ hdall]
    simp
    omega
  have hself : ∀ δ : Nat, tryDomain (d ++ '.' :: t) (d.length + δ) =
      some (d.length + 1 + t.length) := by
    intro δ
    induction δ with
    | zero =>
      obtain ⟨n, hn⟩ : ∃ n, d.length = n + 1 := by
        have := List.length_pos.mpr hd
        exact ⟨d.length - 1, by omega⟩
      rw [Nat.add_zero, hn, tryDomain]
      have hdr : (d ++ '.' :: t).drop (n + 1) = '.' :: t := by
        rw [← hn, List.drop_left]
      rw [hdr]
      have htr : runLen Char.isAlpha t = t.length := by
        unfold runLen; rw [takeWhile_all Char.isAlpha t htsat]
      simp [htr, ht2]
    | succ δ ihδ =>
      have harith : d.length + (δ + 1) = (d.length + δ) + 1 := by omega
      rw [harith, tryDomain]
      have hdr : (d ++ '.' :: t).drop (d.length + δ + 1) = t.drop δ := by
        have h1 : d.length + δ + 1 = d.length + (δ + 1) := by omega
        rw [h1, ← List.drop_drop, List.drop_left]
        rfl
      rw [hdr]
      split
      next rest1 heq =>
        have hdotmem : '.' ∈ t.drop δ := by rw [heq]; simp
        have := htsat '.' (List.mem_of_mem_drop hdotmem)
        simp at this
      next => exact ihδ
  have hmsplit : runLen isDomainChar (d ++ '.' :: t) = d.length + (1 + t.length) := by
    omega
  have htd : tryDomain (d ++ '.' :: t) (runLen isDomainChar (d ++ '.' :: t)) =
      some (d.length + 1 + t.length) := by
    rw [hmsplit]; exact hself (1 + t.length)
  rw [matchAt, if_neg hk0, hdropk]
  have hwlen : w.length = runLen isLocalChar w + 1 + (d.length + 1 + t.length) := by
    rw [hk, hweq]
    simp
    omega
  simp [htd, hwlen]

lemma emailWord_findFirst (w : List Char) (hw : EmailWord w) : findFirstEmail w = some w := by
  have hm := emailWord_matchAt w hw
  obtain ⟨l, d, t, hweq, hl, _, _, _, _, _⟩ := hw
  have hne : w ≠ [] := by
    rw [hweq]
    rcases l with _ | ⟨a, l'⟩
    · exact absurd rfl hl
    · simp
  rcases hwc : w with _ | ⟨c, rest⟩
  · exact absurd hwc hne
  · subst hwc
    rw [findFirstEmail, hm]
    simp

/-- C5: `parse_email_from_text` (main.py 258-266) is a pure function of its
input; it returns the leftmost substring of the input matching the email
grammar (nonempty local part of letters/digits/`._%+-`, an `@`, nonempty
domain of letters/digits/`.-`, a dot, TLD of at least two letters), or `""`
when no substring of the input matches: an empty result means no substring
matches the grammar, and a nonempty result is a grammar match occurring at a
position strictly left of any other grammar match. -/
theorem c5_email_leftmost_match (s : String) :
    (parse_email_from_text s = "" →
      ∀ p w tail, s.data.drop p = w ++ tail → ¬ EmailWord w)
  ∧ (parse_email_from_text s ≠ "" →
      ∃ p tail, s.data.drop p = (parse_email_from_text s).data ++ tail ∧
        EmailWord (parse_email_from_text s).data ∧
        ∀ q w tailq, q < p → s.data.drop q = w ++ tailq → ¬ EmailWord w) := by
  constructor
  · intro hres p w tail hocc hw
    rcases hf : findFirstEmail s.data with _ | w0
    · have hnone := findFirstEmail_none s.data hf p
      obtain ⟨len, hlen⟩ := matchAt_complete (s.data.drop p) w tail hocc hw
      rw [hnone] at hlen
      exact absurd hlen (by simp)
    · have hres2 : parse_email_from_text s = String.mk w0 := by
        rw [parse_email_from_text, hf]
      have hw0nil : w0 = [] := by
        have h2 := hres2.symm.trans hres
        simpa using congrArg String.data h2
      obtain ⟨p0, len, hm, hw0, _⟩ := findFirstEmail_some s.data w0 hf
      obtain ⟨l, d, t, rest, _, htake, hl, _, _, _, _, _⟩ := matchAt_sound _ _ hm
      rw [hw0nil] at hw0
      rw [← hw0] at htake
      rcases l with _ | ⟨a, l'⟩
      · exact hl rfl
      · simp at htake
  · intro hne
    rcases hf : findFirstEmail s.data with _ | w0
    · exact absurd (by rw [parse_email_from_text, hf]) hne
    · have hdata : (parse_email_from_text s).data = w0 := by
        rw [parse_email_from_text, hf]
      obtain ⟨p, len, hm, hw0, hmin⟩ := findFirstEmail_some s.data w0 hf
      obtain ⟨l, d, t, rest, _, htake, hl, hlsat, hd, hdsat, ht2, htsat⟩ :=
        matchAt_sound _ _ hm
      have hEw : EmailWord ((s.data.drop p).take len) :=
        ⟨l, d, t, htake, hl, hlsat, hd, hdsat, ht2, htsat⟩
      refine ⟨p, (s.data.drop p).drop len, ?_, ?_, ?_⟩
      · rw [hdata, hw0]
        exact (List.take_append_drop len (s.data.drop p)).symm
      · rw [hdata, hw0]
        exact hEw
      · intro q w tailq hq hocc hw
        have hnone := hmin q hq
        obtain ⟨len2, hlen2⟩ := matchAt_complete (s.data.drop q) w tailq hocc hw
        rw [hnone] at hlen2
        exact absurd hlen2 (by simp)

/-- Witness for C5 at a concrete input: the result on
`"mail me: ab@cd.net"` is nonempty and is a grammar match. -/
theorem c5_email_leftmost_match_witness :
    parse_email_from_text "mail me: ab@cd.net" ≠ ""
  ∧ EmailWord (parse_email_from_text "mail me: ab@cd.net").data := by
  have h := (c5_email_leftmost_match "mail me: ab@cd.net").2 (by decide)
  exact ⟨by decide, h.choose_spec.choose_spec.2.1⟩

/-- C6: `parse_email_from_text` is idempotent: applying it to its own output
returns that output unchanged, because a bare matched email re-matches
itself and the empty string parses to empty. -/
theorem c6_email_idempotent (x : String) :
    parse_email_from_text (parse_email_from_text x) = parse_email_from_text x := by
  rcases hf : findFirstEmail x.data with _ | w
  · have hres : parse_email_from_text x = "" := by rw [parse_email_from_text, hf]
    rw [hres]
    decide
  · have hres : parse_email_from_text x = String.mk w := by rw [parse_email_from_text, hf]
    rw [hres]
    obtain ⟨p, len, hm, hw0, _⟩ := findFirstEmail_some x.data w hf
    obtain ⟨l, d, t, rest, _, htake, hl, hlsat, hd, hdsat, ht2, htsat⟩ :=
      matchAt_sound _ _ hm
    have hEw : EmailWord w := by
      rw [hw0]
      exact ⟨l, d, t, htake, hl, hlsat, hd, hdsat, ht2, htsat⟩
    have hff := emailWord_findFirst w hEw
    rw [parse_email_from_text]
    have hdat : (String.mk w).data = w := rfl
    rw [hdat, hff]

/-! ## Channel-handle normalization and percent-encoding
(`open_analytics_page`, main.py 134-142)

The source prefixes `@` when absent and calls `urllib.parse.quote` with its
defaults (`safe='/'`, UTF-8): the string is encoded to UTF-8 bytes and every
byte outside `A-Z a-z 0-9 _.-~/` is rendered as `%` plus two uppercase hex
digits.  `utf8EncodeChar`/`utf8DecodeBytes`/`percentDecodeBytes` implement
the standard encodings used to state the round-trip property. -/

def strStartsWith (s pre : String) : Bool :=
  pre.data.isPrefixOf s.data

def normalize_channel_id (channel_id : String) : String :=
  if strStartsWith channel_id "@" then channel_id else "@" ++ channel_id

def alwaysSafeByte (b : Nat) : Bool :=
  (65 ≤ b && b ≤ 90) || (97 ≤ b && b ≤ 122) || (48 ≤ b && b ≤ 57) ||
    b == 95 || b == 46 || b == 45 || b == 126 || b == 47

def hexDigitChar (n : Nat) : Char :=
  if n < 10 then Char.ofNat (48 + n) else Char.ofNat (55 + n)

def quoteBytes : List Nat → List Char
  | [] => []
  | b :: rest =>
    (if alwaysSafeByte b then [Char.ofNat b]
     else ['%', hexDigitChar (b / 16), hexDigitChar (b % 16)]) ++ quoteBytes rest

def utf8EncodeChar (c : Char) : List Nat :=
  let n := c.toNat
  if n < 128 then [n]
  else if n < 2048 then [192 + n / 64, 128 + n % 64]
  else if n < 65536 then [224 + n / 4096, 128 + (n / 64) % 64, 128 + n % 64]
  else [240 + n / 262144, 128 + (n / 4096) % 64, 128 + (n / 64) % 64, 128 + n % 64]

def utf8Encode (l : List Char) : List Nat :=
  l.flatMap utf8EncodeChar

/-- `urllib.parse.quote(s, encoding='utf-8')` with the default safe set. -/
def urlQuote (s : String) : String :=
  String.mk (quoteBytes (utf8Encode s.data))

def hexVal (c : Char) : Option Nat :=
  if 48 ≤ c.toNat ∧ c.toNat ≤ 57 then some (c.toNat - 48)
  else if 65 ≤ c.toNat ∧ c.toNat ≤ 70 then some (c.toNat - 55)
  else if 97 ≤ c.toNat ∧ c.toNat ≤ 102 then some (c.toNat - 87)
  else none

def percentDecodeBytes : List Char → Option (List Nat)
  | [] => some []
  | '%' :: h1 :: h2 :: rest =>
    match hexVal h1, hexVal h2, percentDecodeBytes rest with
    | some a, some b, some tl => some ((16 * a + b) :: tl)
    | _, _, _ => none
  | c :: rest =>
    if c.toNat < 128 then (percentDecodeBytes rest).map (c.toNat :: ·) else none

def utf8DecodeBytes : List Nat → Option (List Char)
  | [] => some []
  | b :: rest =>
    if b < 128 then (utf8DecodeBytes rest).map (Char.ofNat b :: ·)
    else if b < 224 then
      match rest with
      | b2 :: r =>
        if 192 ≤ b ∧ 128 ≤ b2 ∧ b2 < 192 then
          (utf8DecodeBytes r).map (Char.ofNat ((b - 192) * 64 + (b2 - 128)) :: ·)
        else none
      | [] => none
    else if b < 240 then
      match rest with
      | b2 :: b3 :: r =>
        if 128 ≤ b2 ∧ b2 < 192 ∧ 128 ≤ b3 ∧ b3 < 192 then
          (utf8DecodeBytes r).map
            (Char.ofNat ((b - 224) * 4096 + (b2 - 128) * 64 + (b3 - 128)) :: ·)
        else none
      | _ => none
    else
      match rest with
      | b2 :: b3 :: b4 :: r =>
        if 128 ≤ b2 ∧ b2 < 192 ∧ 128 ≤ b3 ∧ b3 < 192 ∧ 128 ≤ b4 ∧ b4 < 192 then
          (utf8DecodeBytes r).map
            (Char.ofNat ((b - 240) * 262144 + (b2 - 128) * 4096 +
              (b3 - 128) * 64 + (b4 - 128)) :: ·)
        else none
      | _ => none

/-- C7: normalization prefixes `@` exactly when absent, so
`normalize("@foo") = normalize("foo") = "@foo"`; and percent-encoding the
normalized handle `"@雑学博士"` produces only ASCII characters and
percent-decodes (then UTF-8-decodes) back to the original string. -/
theorem c7_normalize_and_quote :
    normalize_channel_id "@foo" = "@foo"
  ∧ normalize_channel_id "foo" = "@foo"
  ∧ normalize_channel_id "@foo" = normalize_channel_id "foo"
  ∧ (∀ c ∈ (urlQuote (normalize_channel_id "@雑学博士")).data, c.toNat < 128)
  ∧ ((percentDecodeBytes (urlQuote (normalize_channel_id "@雑学博士")).data).bind
      utf8DecodeBytes = some "@雑学博士".data) := by
  refine ⟨by decide, by decide, by decide, by decide, by decide⟩

/-! ## Browser tab state

The selenium driver holds a list of window handles in creation order; the
first tab is the search-results tab.  `window.open` appends a handle;
`switch_to.window` moves the focus; `driver.close()` closes the focused
tab.  `switch_to_first_tab` / `switch_to_new_tab` are main.py 62-78; the
recovery loop of lines 426-429 ("while more than one tab: switch to last,
close; then switch to first") is `resetToSearchOnly`. -/

structure Browser where
  tabs : List Nat
  focus : Nat
  nextId : Nat
deriving DecidableEq, Repr

def openTab (b : Browser) : Browser :=
  { b with tabs := b.tabs ++ [b.nextId], nextId := b.nextId + 1 }

/-- `switch_to_new_tab` (main.py 62-69): focus the last window handle;
on an empty handle list the exception is caught and nothing changes. -/
def switch_to_new_tab (b : Browser) : Browser :=
  match b.tabs.getLast? with
  | some t => { b with focus := t }
  | none => b

/-- `switch_to_first_tab` (main.py 71-78): focus the first window handle;
on an empty handle list the exception is caught and nothing changes. -/
def switch_to_first_tab (b : Browser) : Browser :=
  match b.tabs.head? with
  | some t => { b with focus := t }
  | none => b

/-- `driver.close()`: the focused tab's handle disappears. -/
def closeFocused (b : Browser) : Browser :=
  { b with tabs := b.tabs.erase b.focus }

lemma getLast?_mem_self (l : List Nat) (a : Nat) (h : l.getLast? = some a) : a ∈ l := by
  obtain ⟨hne, heq⟩ := List.mem_getLast?_eq_getLast (Option.mem_def.mpr h)
  rw [heq]
  exact List.getLast_mem hne

/-- The `while len(driver.window_handles) > 1` loop of main.py 426-428:
repeatedly switch to the newest tab and close it. -/
def closeLoop (b : Browser) : Browser :=
  if h : 1 < b.tabs.length then closeLoop (closeFocused (switch_to_new_tab b))
  else b
termination_by b.tabs.length
decreasing_by
  have hne : b.tabs ≠ [] := by
    intro h0
    rw [h0] at h
    simp at h
  obtain ⟨g, hg⟩ : ∃ g, b.tabs.getLast? = some g := by
    rcases hgl : b.tabs.getLast? with _ | g
    · rw [List.getLast?_eq_none_iff] at hgl
      exact absurd hgl hne
    · exact ⟨g, rfl⟩
  simp only [closeFocused, switch_to_new_tab, hg]
  rw [List.length_erase_of_mem (getLast?_mem_self _ _ hg)]
  omega

/-- The recovery primitive of main.py 426-429: close extra tabs
newest-first, then return to the first (search) tab. -/
def resetToSearchOnly (b : Browser) : Browser :=
  switch_to_first_tab (closeLoop b)

lemma erase_getLast_nodup : ∀ (l : List Nat) (g : Nat),
    l.getLast? = some g → l.Nodup → l.erase g = l.dropLast := by
  intro l
  induction l with
  | nil => intro g hg; simp at hg
  | cons a tl ih =>
    intro g hg hnd
    cases tl with
    | nil =>
      simp at hg
      subst hg
      simp
    | cons c tl' =>
      rw [List.getLast?_cons_cons] at hg
      have hmem : g ∈ c :: tl' := getLast?_mem_self _ _ hg
      have hane : a ≠ g := by
        intro heq
        exact (List.nodup_cons.mp hnd).1 (heq ▸ hmem)
      rw [List.erase_cons_tail (by simp [hane]), ih g hg (List.nodup_cons.mp hnd).2]
      rfl

lemma closeLoop_spec : ∀ (n : Nat) (b : Browser) (t : Nat), b.tabs.length ≤ n →
    b.tabs.Nodup → b.tabs.head? = some t →
    (closeLoop b).tabs = [t] ∧ (closeLoop b).nextId = b.nextId := by
  intro n
  induction n with
  | zero =>
    intro b t hlen _ hh
    have h0 : b.tabs = [] := List.length_eq_zero.mp (by omega)
    rw [h0] at hh
    simp at hh
  | succ n ih =>
    intro b t hlen hnd hh
    have hne : b.tabs ≠ [] := by
      intro h0
      rw [h0] at hh
      simp at hh
    rw [closeLoop]
    by_cases h1 : 1 < b.tabs.length
    · rw [dif_pos h1]
      obtain ⟨g, hg⟩ : ∃ g, b.tabs.getLast? = some g := by
        rcases hgl : b.tabs.getLast? with _ | g
        · rw [List.getLast?_eq_none_iff] at hgl
          exact absurd hgl hne
        · exact ⟨g, rfl⟩
      have hb' : (closeFocused (switch_to_new_tab b)).tabs = b.tabs.dropLast := by
        simp only [closeFocused, switch_to_new_tab, hg]
        exact erase_getLast_nodup b.tabs g hg hnd
      have hbn : (closeFocused (switch_to_new_tab b)).nextId = b.nextId := by
        simp only [closeFocused, switch_to_new_tab, hg]
      have hnd' : (closeFocused (switch_to_new_tab b)).tabs.Nodup := by
        rw [hb']
        exact (List.dropLast_sublist b.tabs).nodup hnd
      have hh' : (closeFocused (switch_to_new_tab b)).tabs.head? = some t := by
        rw [hb']
        rcases hbt : b.tabs with _ | ⟨a, tl⟩
        · exact absurd hbt hne
        · rcases htl : tl with _ | ⟨c, tl'⟩
          · rw [hbt, htl] at h1
            simp at h1
          · rw [hbt] at hh
            simp at hh
            simp [hh]
      have hlen' : (closeFocused (switch_to_new_tab b)).tabs.length ≤ n := by
        rw [hb', List.length_dropLast]
        omega
      obtain ⟨ht, hn⟩ := ih _ t hlen' hnd' hh'
      exact ⟨ht, by rw [hn, hbn]⟩
    · rw [dif_neg h1]
      have hpos := List.length_pos.mpr hne
      have hlen1 : b.tabs.length = 1 := by omega
      rcases hbt : b.tabs with _ | ⟨a, tl⟩
      · exact absurd hbt hne
      · rw [hbt] at hh hlen1
        simp at hh hlen1
        subst hlen1
        rw [hh]
        exact ⟨rfl, rfl⟩

/-- C3: from any browser state with at least one open tab (window handles
are distinct, as they are in a real browser), the recovery primitive of
main.py 426-429 leaves exactly one tab open — the first (search) tab —
with the focus on it, and running it again changes nothing (idempotence). -/
theorem c3_reset_to_search_only (b : Browser) (t : Nat)
    (hh : b.tabs.head? = some t) (hnd : b.tabs.Nodup) :
    (resetToSearchOnly b).tabs = [t]
  ∧ (resetToSearchOnly b).focus = t
  ∧ resetToSearchOnly (resetToSearchOnly b) = resetToSearchOnly b := by
  obtain ⟨ht, hn⟩ := closeLoop_spec b.tabs.length b t (le_refl _) hnd hh
  have hclh : (closeLoop b).tabs.head? = some t := by rw [ht]; rfl
  have htabs : (resetToSearchOnly b).tabs = [t] := by
    simp only [resetToSearchOnly, switch_to_first_tab, hclh]
    exact ht
  have hfocus : (resetToSearchOnly b).focus = t := by
    simp only [resetToSearchOnly, switch_to_first_tab, hclh]
  refine ⟨htabs, hfocus, ?_⟩
  have hclR : closeLoop (resetToSearchOnly b) = resetToSearchOnly b := by
    rw [closeLoop, dif_neg]
    rw [htabs]
    simp
  have hRh : (resetToSearchOnly b).tabs.head? = some t := by rw [htabs]; rfl
  conv_lhs => rw [resetToSearchOnly, hclR]
  simp only [switch_to_first_tab, hRh]
  rcases hR : resetToSearchOnly b with ⟨rt, rf, rn⟩
  rw [hR] at hfocus
  simp at hfocus
  simp [hfocus]

/-- Witness for C3 at the concrete state with tabs `[5, 9, 13]`. -/
theorem c3_reset_to_search_only_witness :
    (resetToSearchOnly ⟨[5, 9, 13], 13, 14⟩).tabs = [5]
  ∧ (resetToSearchOnly ⟨[5, 9, 13], 13, 14⟩).focus = 5
  ∧ resetToSearchOnly (resetToSearchOnly ⟨[5, 9, 13], 13, 14⟩) =
      resetToSearchOnly ⟨[5, 9, 13], 13, 14⟩ := by
  have h := c3_reset_to_search_only ⟨[5, 9, 13], 13, 14⟩ 5 (by rfl) (by simp)
  exact h

/-! ## Per-channel pipeline (`scrape_viewstats` loop body, main.py 368-433)

The environment of one channel iteration is an oracle record: whether
`open_analytics_page` succeeded (main.py 372), whether the waits for the
second and third tab succeeded (378, 397; a failed wait raises and lands in
the `except` block at 423), the outcome of reading the analytics body text
(inside `check_no_data_found`, 157-169), whether `open_youtube_tab`
returned `True` (390; it catches its own exceptions and returns `False`),
the outcomes of the H2/about-text reads (whose failures are caught inside
their helpers with fallback values, 192-256), and whether the spreadsheet
upload inside `save_to_csv_and_update_sheet` (475) succeeded (a failure
raises into the `except` block after both CSV writes already happened). -/

def listContainsSub (pat : List Char) : List Char → Bool
  | [] => pat.isPrefixOf []
  | c :: rest => pat.isPrefixOf (c :: rest) || listContainsSub pat rest

/-- Python's `pat in body` substring test. -/
def containsSub (body pat : String) : Bool :=
  listContainsSub pat.data body.data

def isPySpace (c : Char) : Bool :=
  c == ' ' || c == '\t' || c == '\n' || c == '\r' || c == '\x0b' || c == '\x0c'

/-- Python's `str.strip()`. -/
def pyStrip (l : List Char) : List Char :=
  ((l.dropWhile isPySpace).reverse.dropWhile isPySpace).reverse

deriving instance DecidableEq for Except

structure ChannelEnv where
  openAnalyticsOk : Bool
  tab2Appears : Bool
  analyticsBody : Except Unit String
  openYoutubeOk : Bool
  tab3Appears : Bool
  h2Text : Except Unit String
  aboutText : Except Unit String
  uploadOk : Bool
deriving DecidableEq, Repr

/-- `check_no_data_found` (main.py 157-169): `True` iff the body text was
read successfully and contains the sentinel; any exception while reading is
caught and the function returns `False`. -/
def check_no_data_found (bodyRead : Except Unit String) : Bool :=
  match bodyRead with
  | Except.ok body => containsSub body "No data found"
  | Except.error _ => false

/-- One CSV row `[channel_name, channel_id, keyword, email]`. -/
structure ResultRecord where
  channelName : String
  channelHandle : String
  keyword : String
  email : String
deriving DecidableEq, Repr

/-- The failure-placeholder row written at main.py 432. -/
def failureRecord (channel_id keyword : String) : ResultRecord :=
  ⟨"チャンネル取得失敗", channel_id, keyword, ""⟩

/-- `get_youtube_channel_name` (main.py 192-212): the stripped H2 text, or
the fallback sentinel on any failure. -/
def get_youtube_channel_name (h2 : Except Unit String) : String :=
  match h2 with
  | Except.ok s => String.mk (pyStrip s.data)
  | Except.error _ => "YouTubeチャンネル不明"

/-- `get_youtube_about_text` (main.py 237-256): the stripped description
text, or `""` on any failure. -/
def get_youtube_about_text (about : Except Unit String) : String :=
  match about with
  | Except.ok s => String.mk (pyStrip s.data)
  | Except.error _ => ""

/-- The enriched record built at main.py 402-409. -/
def enrichedRecord (env : ChannelEnv) (keyword channel_id : String) : ResultRecord :=
  ⟨get_youtube_channel_name env.h2Text, channel_id, keyword,
    parse_email_from_text (get_youtube_about_text env.aboutText)⟩

/-- The `except` handler of main.py 423-433: close every extra tab, return
to the first tab, and append the failure-placeholder row. -/
def recoverChannel (channel_id keyword : String) (b : Browser)
    (csv : List ResultRecord) : Browser × List ResultRecord :=
  (resetToSearchOnly b, csv ++ [failureRecord channel_id keyword])

/-- The loop body of main.py 368-433 for one channel handle.  `csv` is the
sequence of data rows appended to the CSV file so far; the success path
appends the enriched row twice (once in `save_to_csv` at 410 and once
inside `save_to_csv_and_update_sheet` at 463-466, which is called at 411
with the same row). -/
def processChannel (env : ChannelEnv) (keyword channel_id : String) (b : Browser)
    (csv : List ResultRecord) : Browser × List ResultRecord :=
  if env.openAnalyticsOk = false then (b, csv)
  else
    let b1 := openTab b
    if env.tab2Appears = false then recoverChannel channel_id keyword b1 csv
    else
      let b2 := switch_to_new_tab b1
      if check_no_data_found env.analyticsBody then
        (switch_to_first_tab (closeFocused b2), csv)
      else if env.openYoutubeOk = false then
        (switch_to_first_tab (closeFocused b2), csv)
      else
        let b3 := openTab b2
        if env.tab3Appears = false then recoverChannel channel_id keyword b3 csv
        else
          let b4 := switch_to_new_tab b3
          let r := enrichedRecord env keyword channel_id
          let csv2 := (csv ++ [r]) ++ [r]
          if env.uploadOk = false then recoverChannel channel_id keyword b4 csv2
          else
            let b5 := switch_to_new_tab (closeFocused b4)
            let b6 := switch_to_first_tab (closeFocused b5)
            (b6, csv2)

/-- The rows one channel handle contributes to the CSV, by control path. -/
def channelNewRows (env : ChannelEnv) (keyword channel_id : String) : List ResultRecord :=
  if env.openAnalyticsOk = false then []
  else if env.tab2Appears = false then [failureRecord channel_id keyword]
  else if check_no_data_found env.analyticsBody then []
  else if env.openYoutubeOk = false then []
  else if env.tab3Appears = false then [failureRecord channel_id keyword]
  else if env.uploadOk = false then
    [enrichedRecord env keyword channel_id, enrichedRecord env keyword channel_id,
      failureRecord channel_id keyword]
  else [enrichedRecord env keyword channel_id, enrichedRecord env keyword channel_id]

lemma processChannel_rows (env : ChannelEnv) (keyword channel_id : String) (b : Browser)
    (csv : List ResultRecord) :
    (processChannel env keyword channel_id b csv).2 =
      csv ++ channelNewRows env keyword channel_id := by
  rw [processChannel, channelNewRows]
  split
  next => simp
  next =>
    split
    next => simp [recoverChannel]
    next =>
      split
      next => simp
      next =>
        split
        next => simp
        next =>
          split
          next => simp [recoverChannel]
          next =>
            split
            next => simp [recoverChannel]
            next => simp

/-- The per-handle loop of main.py 368: process each discovered handle in
order, threading the browser state and the CSV rows. -/
def processChannels (envs : Nat → ChannelEnv) (keyword : String) :
    List String → Nat → Browser → List ResultRecord → Browser × List ResultRecord
  | [], _, b, csv => (b, csv)
  | ch :: rest, i, b, csv =>
    let p := processChannel (envs i) keyword ch b csv
    processChannels envs keyword rest (i + 1) p.1 p.2

/-- The rows a list of handles contributes, handle by handle. -/
def handlesNewRows (envs : Nat → ChannelEnv) (keyword : String) :
    List String → Nat → List ResultRecord
  | [], _ => []
  | ch :: rest, i => channelNewRows (envs i) keyword ch ++ handlesNewRows envs keyword rest (i + 1)

lemma processChannels_rows (envs : Nat → ChannelEnv) (keyword : String) :
    ∀ (hs : List String) (i : Nat) (b : Browser) (csv : List ResultRecord),
    (processChannels envs keyword hs i b csv).2 = csv ++ handlesNewRows envs keyword hs i := by
  intro hs
  induction hs with
  | nil => intro i b csv; simp [processChannels, handlesNewRows]
  | cons ch rest ih =>
    intro i b csv
    rw [processChannels, handlesNewRows]
    rw [ih (i + 1)]
    rw [processChannel_rows]
    simp

/-- C1 (amended): each handle discovered by the listing scan finishes its
loop iteration having appended exactly `channelNewRows` to the CSV before
the sweep advances to the next handle: zero rows when the analytics page
fails to open, when the no-data sentinel is present, or when the YouTube
link click fails; one placeholder row when a wait raises after the
analytics tab opened; two (duplicate) enriched rows on full success; and
the two enriched rows plus a placeholder when the upload after them
raises.  The first conjunct states this for the whole per-page handle
loop, the second for a single handle. -/
theorem c1_rows_per_handle (envs : Nat → ChannelEnv) (keyword : String)
    (hs : List String) (i : Nat) (b : Browser) (csv : List ResultRecord) :
    (processChannels envs keyword hs i b csv).2 = csv ++ handlesNewRows envs keyword hs i
  ∧ ∀ env ch b2 csv2, (processChannel env keyword ch b2 csv2).2 =
      csv2 ++ channelNewRows env keyword ch :=
  ⟨processChannels_rows envs keyword hs i b csv,
    fun env ch b2 csv2 => processChannel_rows env keyword ch b2 csv2⟩

/-- Counterexample to C1 as stated: a discovered handle whose analytics
page shows the no-data sentinel terminates its iteration with zero rows,
and a fully successful handle terminates with two rows — not exactly
one. -/
theorem c1_counterexample :
    (processChannel ⟨true, true, Except.ok "No data found", true, true,
      Except.ok "", Except.ok "", true⟩ "kw" "@a" ⟨[0], 0, 1⟩ []).2 = []
  ∧ (processChannel ⟨true, true, Except.ok "stats", true, true, Except.ok "Name",
      Except.ok "mail: a@b.com", true⟩ "kw" "@a" ⟨[0], 0, 1⟩ []).2.length = 2 :=
  ⟨by decide, by decide⟩

/-- C2 (amended): if the analytics tab opens successfully but the
YouTube-navigation click throws (caught inside `open_youtube_tab`, which
returns `False`), then NO record is emitted for that handle — the code
takes the skip path at main.py 391-395 without writing a placeholder —
and the browser is back to a single open tab, focused on the search tab,
before the next handle is processed. -/
theorem c2_youtube_click_failure (env : ChannelEnv) (keyword channel_id : String)
    (b : Browser) (t : Nat) (csv : List ResultRecord)
    (htabs : b.tabs = [t])
    (h1 : env.openAnalyticsOk = true) (h2 : env.tab2Appears = true)
    (h3 : check_no_data_found env.analyticsBody = false)
    (h4 : env.openYoutubeOk = false) :
    (processChannel env keyword channel_id b csv).2 = csv
  ∧ (processChannel env keyword channel_id b csv).1.tabs = [t]
  ∧ (processChannel env keyword channel_id b csv).1.focus = t := by
  have herase : ([t, b.nextId] : List Nat).erase b.nextId = [t] := by
    by_cases hteq : t = b.nextId
    · subst hteq
      simp [List.erase_cons]
    · simp [List.erase_cons, hteq]
  rw [processChannel]
  simp only [h1, h2, h3, h4]
  simp [openTab, switch_to_new_tab, closeFocused, switch_to_first_tab, htabs, herase]

/-- Witness for C2 at a concrete environment and single-tab browser. -/
theorem c2_youtube_click_failure_witness :
    (processChannel ⟨true, true, Except.ok "", false, true, Except.ok "",
      Except.ok "", true⟩ "kw" "@h" ⟨[0], 0, 1⟩ []).2 = []
  ∧ (processChannel ⟨true, true, Except.ok "", false, true, Except.ok "",
      Except.ok "", true⟩ "kw" "@h" ⟨[0], 0, 1⟩ []).1.tabs = [0]
  ∧ (processChannel ⟨true, true, Except.ok "", false, true, Except.ok "",
      Except.ok "", true⟩ "kw" "@h" ⟨[0], 0, 1⟩ []).1.focus = 0 :=
  c2_youtube_click_failure _ "kw" "@h" _ 0 [] rfl rfl rfl (by decide) rfl

/-- Counterexample to C2 as stated: on the youtube-click-failure path the
emitted row list is empty, not the claimed single failure-placeholder. -/
theorem c2_counterexample :
    (processChannel ⟨true, true, Except.ok "", false, true, Except.ok "",
      Except.ok "", true⟩ "kw" "@h" ⟨[0], 0, 1⟩ []).2 = []
  ∧ ([] : List ResultRecord) ≠ [failureRecord "@h" "kw"] :=
  ⟨by decide, by decide⟩

/-- C4 (code bug): for a successful channel the code appends the enriched
record's row to the CSV twice — once in `save_to_csv` (main.py 410) and
once more inside `save_to_csv_and_update_sheet` (463-466, called at 411
with the same row) — where the spec requires exactly one row per
record. -/
theorem c4_duplicate_row_on_success (env : ChannelEnv) (keyword channel_id : String)
    (b : Browser) (csv : List ResultRecord)
    (h1 : env.openAnalyticsOk = true) (h2 : env.tab2Appears = true)
    (h3 : check_no_data_found env.analyticsBody = false)
    (h4 : env.openYoutubeOk = true) (h5 : env.tab3Appears = true)
    (h6 : env.uploadOk = true) :
    (processChannel env keyword channel_id b csv).2 =
      csv ++ [enrichedRecord env keyword channel_id, enrichedRecord env keyword channel_id] := by
  rw [processChannel_rows, channelNewRows]
  simp [h1, h2, h3, h4, h5, h6]

/-- Witness for C4 at the concrete failing input: one successful channel
record produces two identical CSV rows. -/
theorem c4_duplicate_row_on_success_witness :
    (processChannel ⟨true, true, Except.ok "stats", true, true, Except.ok "Name",
      Except.ok "mail: a@b.com", true⟩ "kw" "@a" ⟨[0], 0, 1⟩ []).2 =
      [⟨"Name", "@a", "kw", "a@b.com"⟩, ⟨"Name", "@a", "kw", "a@b.com"⟩] := by
  have h := c4_duplicate_row_on_success ⟨true, true, Except.ok "stats", true, true,
    Except.ok "Name", Except.ok "mail: a@b.com", true⟩ "kw" "@a" ⟨[0], 0, 1⟩ []
    rfl rfl (by decide) rfl rfl rfl
  rw [h]
  decide

/-- C10: if reading the analytics page body raises, `check_no_data_found`
returns `false` (it never propagates the exception), so an unreadable
analytics page is treated exactly like a readable page without the
sentinel: the pipeline proceeds to the YouTube-navigation step rather
than taking the no-data skip path. -/
theorem c10_unreadable_body_proceeds (env : ChannelEnv) (keyword channel_id : String)
    (b : Browser) (csv : List ResultRecord) (u : Unit)
    (he : env.analyticsBody = Except.error u) :
    check_no_data_found env.analyticsBody = false
  ∧ processChannel env keyword channel_id b csv =
      processChannel { env with analyticsBody := Except.ok "" } keyword channel_id b csv := by
  have hc : check_no_data_found (Except.ok "") = false := by decide
  have he2 : check_no_data_found (Except.error u) = false := rfl
  have hrec : enrichedRecord { env with analyticsBody := Except.ok "" } keyword channel_id =
      enrichedRecord env keyword channel_id := rfl
  constructor
  · rw [he]
    exact he2
  · rw [processChannel, processChannel]
    simp [he, hc, he2, hrec]

/-- Witness for C10 at a concrete environment whose body read fails. -/
theorem c10_unreadable_body_proceeds_witness :
    check_no_data_found (Except.error ()) = false
  ∧ processChannel ⟨true, true, Except.error (), false, true, Except.ok "",
      Except.ok "", true⟩ "k" "@h" ⟨[0], 0, 1⟩ [] =
      processChannel ⟨true, true, Except.ok "", false, true, Except.ok "",
        Except.ok "", true⟩ "k" "@h" ⟨[0], 0, 1⟩ [] := by
  have h := c10_unreadable_body_proceeds ⟨true, true, Except.error (), false, true,
    Except.ok "", Except.ok "", true⟩ "k" "@h" ⟨[0], 0, 1⟩ [] () rfl
  exact h

/-! ## Page and keyword sweep (`scrape_viewstats`, main.py 325-452)

A page of the listing site is an oracle: either the load/wait raised (the
page-level `except` at 435-437 logs and continues) or it produced a body
text, the text contents of the `@`-bearing `p` elements, and one channel
environment per discovered handle.  `get_all_channel_ids_on_page`
(main.py 106-121) strips each text and keeps those starting with `@`. -/

def get_all_channel_ids_on_page (pTexts : List String) : List String :=
  (pTexts.map (fun t => String.mk (pyStrip t.data))).filter (fun s => strStartsWith s "@")

inductive PageOutcome where
  | loadFail : PageOutcome
  | loaded (body : String) (pTexts : List String) (envs : Nat → ChannelEnv) : PageOutcome

/-- The `"No result found" in body_text` check of main.py 353-354. -/
def pageNoResult : PageOutcome → Bool
  | PageOutcome.loadFail => false
  | PageOutcome.loaded body _ _ => containsSub body "No result found"

/-- One iteration of the page loop (main.py 340-437). The `Bool` result is
the `no_result_for_this_keyword` flag: `true` triggers the `break`. -/
def processPage (po : PageOutcome) (keyword : String) (b : Browser)
    (csv : List ResultRecord) : Browser × List ResultRecord × Bool :=
  match po with
  | PageOutcome.loadFail => (b, csv, false)
  | PageOutcome.loaded body pTexts envs =>
    if containsSub body "No result found" then (b, csv, true)
    else
      let p := processChannels envs keyword (get_all_channel_ids_on_page pTexts) 0 b csv
      (p.1, p.2, false)

/-- The `for page in range(1, 4)` loop with its sentinel `break`. -/
def processPages (pages : Nat → PageOutcome) (keyword : String) :
    List Nat → Browser → List ResultRecord → Browser × List ResultRecord
  | [], b, csv => (b, csv)
  | p :: rest, b, csv =>
    let r := processPage (pages p) keyword b csv
    if r.2.2 then (r.1, r.2.1)
    else processPages pages keyword rest r.1 r.2.1

/-- The `for keyword in keywords` loop (main.py 335): after the page loop
the `if no_result_for_this_keyword: continue` is a no-op, so each keyword
just runs its pages and the sweep moves on. -/
def sweepKeywords (world : String → Nat → PageOutcome) :
    List String → Browser → List ResultRecord → Browser × List ResultRecord
  | [], b, csv => (b, csv)
  | kw :: rest, b, csv =>
    let r := processPages (world kw) kw [1, 2, 3] b csv
    sweepKeywords world rest r.1 r.2

/-! ## CSV file and entry point (main.py 29-40, 84-91, 325-452) -/

def headerRow : List String := ["ChannelName", "ChannelID", "Keyword", "Email"]

structure CsvFile where
  present : Bool
  rows : List (List String)
deriving DecidableEq, Repr

/-- The CSV initialization of main.py 84-91: create the file with the
header row only when it does not already exist. -/
def initCsvFile (f : CsvFile) : CsvFile :=
  if f.present then f else ⟨true, [headerRow]⟩

/-- Python's `raw.split(",")`. -/
def splitComma : List Char → List (List Char)
  | [] => [[]]
  | c :: rest =>
    if c = ',' then [] :: splitComma rest
    else
      match splitComma rest with
      | g :: gs => (c :: g) :: gs
      | [] => [[c]]

/-- `get_user_keywords` (main.py 29-40): split on commas, strip, drop
empties; an empty result makes the process exit. -/
def get_user_keywords_list (raw : String) : List String :=
  ((splitComma raw.data).map (fun l => String.mk (pyStrip l))).filter (fun s => !(s == ""))

def recordToRow (r : ResultRecord) : List String :=
  [r.channelName, r.channelHandle, r.keyword, r.email]

inductive RunResult where
  | earlyExit (file : CsvFile) : RunResult
  | completed (file : CsvFile) (records : List ResultRecord) : RunResult
deriving DecidableEq, Repr

/-- `scrape_viewstats` (main.py 325-452): the CSV is initialized FIRST
(line 328), then the keywords are read (329); an empty keyword list exits
at once (`exit(0)` in `get_user_keywords`).  Otherwise the sweep runs and
the file ends as header plus one row per CSV append, in order. -/
def scrape_viewstats (world : String → Nat → PageOutcome) (rawInput : String)
    (fs : CsvFile) : RunResult :=
  let fs1 := initCsvFile fs
  let keywords := get_user_keywords_list rawInput
  if keywords = [] then RunResult.earlyExit fs1
  else
    let r := sweepKeywords world keywords ⟨[0], 0, 1⟩ []
    RunResult.completed { fs1 with rows := fs1.rows ++ r.2.map recordToRow } r.2

/-- C8: when the listing page for `(keyword, p)` shows the "No result
found" sentinel, the page loop stops at `p` with the state unchanged by
`p` (so the remaining page indices of that keyword are never visited and
emit no records), and — when the sentinel is already on page 1 — the
keyword contributes nothing at all while the sweep continues with the
remaining keywords exactly as if the keyword were absent; the sweep as a
whole is not aborted. -/
theorem c8_no_result_skips_keyword (world : String → Nat → PageOutcome) (kw : String)
    (kws : List String) (p : Nat) (rest : List Nat) (b : Browser) (csv : List ResultRecord)
    (h : pageNoResult (world kw p) = true) :
    processPages (world kw) kw (p :: rest) b csv = (b, csv)
  ∧ (pageNoResult (world kw 1) = true →
      sweepKeywords world (kw :: kws) b csv = sweepKeywords world kws b csv) := by
  have hpage : ∀ q b2 csv2, pageNoResult (world kw q) = true →
      processPage (world kw q) kw b2 csv2 = (b2, csv2, true) := by
    intro q b2 csv2 hq
    rcases hpo : world kw q with _ | ⟨body, pTexts, envs⟩
    · rw [hpo] at hq
      simp [pageNoResult] at hq
    · rw [hpo] at hq
      simp only [pageNoResult] at hq
      simp [processPage, hq]
  constructor
  · rw [processPages, hpage p b csv h]
    simp
  · intro h1
    rw [sweepKeywords]
    rw [show ([1, 2, 3] : List Nat) = 1 :: [2, 3] from rfl]
    rw [processPages, hpage 1 b csv h1]
    simp

/-- A concrete world whose every listing page shows the sentinel. -/
def c8World : String → Nat → PageOutcome :=
  fun _ _ => PageOutcome.loaded "No result found" []
    (fun _ => ⟨true, true, Except.ok "", true, true, Except.ok "", Except.ok "", true⟩)

/-- Witness for C8 at the concrete world `c8World`. -/
theorem c8_no_result_skips_keyword_witness :
    processPages (c8World "k1") "k1" [1, 2, 3] ⟨[0], 0, 1⟩ [] = (⟨[0], 0, 1⟩, [])
  ∧ sweepKeywords c8World ["k1", "k2"] ⟨[0], 0, 1⟩ [] =
      sweepKeywords c8World ["k2"] ⟨[0], 0, 1⟩ [] := by
  have h := c8_no_result_skips_keyword c8World "k1" ["k2"] 1 [2, 3] ⟨[0], 0, 1⟩ []
    (by decide)
  exact ⟨h.1, h.2 (by decide)⟩

/-- Counterexample to C9 as stated: with no keywords supplied (`" , "`
strips to nothing) and no pre-existing output file, the process exits
early but the CSV file HAS been created with its header row before the
keyword check, because `initialize_csv` runs at main.py 328, before
`get_user_keywords` at 329. -/
theorem c9_counterexample :
    scrape_viewstats (fun _ _ => PageOutcome.loadFail) " , " ⟨false, []⟩ =
      RunResult.earlyExit ⟨true, [headerRow]⟩
  ∧ (⟨true, [headerRow]⟩ : CsvFile) ≠ ⟨false, []⟩ :=
  ⟨by decide, by decide⟩

/-- C9 (amended): if the keyword list after splitting and trimming is
empty, the process exits immediately and no result rows are written — but
the tabular output file is created with its header row (when absent)
before the keyword prompt, so the file may be created or left with header
only at exit. -/
theorem c9_early_exit (world : String → Nat → PageOutcome) (raw : String) (fs : CsvFile)
    (h : get_user_keywords_list raw = []) :
    scrape_viewstats world raw fs = RunResult.earlyExit (initCsvFile fs)
  ∧ (initCsvFile fs).rows = (if fs.present then fs.rows else [headerRow]) := by
  constructor
  · rw [scrape_viewstats]
    simp [h]
  · by_cases hp : fs.present <;> simp [initCsvFile, hp]

/-- Witness for C9 (amended) at a concrete empty input and absent file. -/
theorem c9_early_exit_witness :
    scrape_viewstats (fun _ _ => PageOutcome.loadFail) "" ⟨false, []⟩ =
      RunResult.earlyExit (initCsvFile ⟨false, []⟩)
  ∧ (initCsvFile (⟨false, []⟩ : CsvFile)).rows = [headerRow] := by
  have h := c9_early_exit (fun _ _ => PageOutcome.loadFail) "" ⟨false, []⟩ (by decide)
  exact ⟨h.1, by simpa using h.2⟩
